import Mathlib

/-!
Verification development for the gitblog publish pipeline.

The definitions below are a shallow embedding of the publish orchestration
subsystem: the base64 transport encoding used by the content store client,
the content sanitization applied before every remote write
(`GitHubApiService.sanitizeContent`), the publish-gate state
(`GlobalStateManager` and the `SyncService` mutex), the build-trigger
decision (`GitHubApiService.triggerPagesBuildIfNeeded`), and the publish
algorithm (`SyncService.publishAndRefreshGitHubPages`).

Strings handled by the sanitizer are modelled as lists of UTF-16 code
units (`List Nat`); every character the sanitizer treats specially lies in
the basic multilingual plane, where code units and code points agree.
Times are modelled as integer milliseconds (the JavaScript `Date.now()`
clock).  Remote calls are modelled by an environment that says, for each
call the algorithm makes, whether it resolves or rejects and with which
error message.
-/

namespace GitBlog

/-! ### Base64 transport encoding

The app transfers file content through the `base-64` package (a `btoa`
polyfill): 3 input bytes become 4 alphabet characters, with `=` padding,
and encoding rejects any code unit above 255. -/

/-- Character code of the base64 alphabet entry at index `n` (valid for `n < 64`). -/
def b64tbl (n : Nat) : Nat :=
  if n < 26 then 65 + n
  else if n < 52 then 97 + (n - 26)
  else if n < 62 then 48 + (n - 52)
  else if n = 62 then 43
  else 47

/-- Index of character code `c` in the base64 alphabet (left inverse of `b64tbl`). -/
def b64inv (c : Nat) : Nat :=
  if 65 ≤ c ∧ c ≤ 90 then c - 65
  else if 97 ≤ c ∧ c ≤ 122 then 26 + (c - 97)
  else if 48 ≤ c ∧ c ≤ 57 then 52 + (c - 48)
  else if c = 43 then 62
  else 63

/-- Base64-encode a byte list (each element must be `< 256`). -/
def b64encode : List Nat → List Nat
  | [] => []
  | [a] => [b64tbl (a / 4), b64tbl (a % 4 * 16), 61, 61]
  | [a, b] => [b64tbl (a / 4), b64tbl (a % 4 * 16 + b / 16), b64tbl (b % 16 * 4), 61]
  | a :: b :: c :: rest =>
      b64tbl (a / 4) :: b64tbl (a % 4 * 16 + b / 16) ::
        b64tbl (b % 16 * 4 + c / 64) :: b64tbl (c % 64) :: b64encode rest

/-- Base64-decode; `61` is the code of the padding character. -/
def b64decode : List Nat → List Nat
  | e0 :: e1 :: e2 :: e3 :: rest =>
      let b0 := b64inv e0 * 4 + b64inv e1 / 16
      if e2 = 61 then [b0]
      else
        let b1 := b64inv e1 % 16 * 16 + b64inv e2 / 4
        if e3 = 61 then [b0, b1]
        else b0 :: b1 :: (b64inv e2 % 4 * 64 + b64inv e3) :: b64decode rest
  | _ => []

/-! ### Content sanitization (`GitHubApiService.sanitizeContent`)

Translated step for step from the source: each `def` below corresponds to
one `content.replace(...)` (or `if`) line of the function, applied in the
same order. -/

/-- Sanitizer step: `content.replace(/^﻿/, '')` — drop one leading byte-order mark. -/
def stripBOM : List Nat → List Nat
  | 0xFEFF :: rest => rest
  | s => s

/-- Sanitizer step: `content.replace(/\r\n/g, '\n')` — collapse CRLF pairs
left to right, leaving lone carriage returns for the next step. -/
def replaceCRLF : List Nat → List Nat
  | [] => []
  | [c] => [c]
  | c :: d :: rest =>
      if c = 13 ∧ d = 10 then 10 :: replaceCRLF rest
      else c :: replaceCRLF (d :: rest)

/-- Sanitizer step: `content.replace(/\r/g, '\n')` — remaining carriage returns become newlines. -/
def crToLf (s : List Nat) : List Nat :=
  s.map fun c => if c = 13 then 10 else c

/-- Character class of `/[\x00-\x08\x0B\x0C\x0E-\x1F\x7F]/` (control characters the sanitizer removes). -/
def isCtrlRemoved (c : Nat) : Bool :=
  c ≤ 8 || c = 11 || c = 12 || (14 ≤ c && c ≤ 31) || c = 127

/-- Sanitizer step: remove null characters and other problematic control characters. -/
def removeCtrl (s : List Nat) : List Nat :=
  s.filter fun c => !isCtrlRemoved c

/-- Sanitizer step: `content.replace(/[￰-￿]/g, '')` — drop the Unicode specials block. -/
def removeSpecials (s : List Nat) : List Nat :=
  s.filter fun c => !(0xFFF0 ≤ c && c ≤ 0xFFFF)

/-- Sanitizer step: curly double quotes to `"` (34). -/
def replDoubleQuotes (s : List Nat) : List Nat :=
  s.map fun c => if c = 0x201C ∨ c = 0x201D then 34 else c

/-- Sanitizer step: curly single quotes to `'` (39). -/
def replSingleQuotes (s : List Nat) : List Nat :=
  s.map fun c => if c = 0x2018 ∨ c = 0x2019 then 39 else c

/-- Sanitizer step: en/em dashes to `-` (45). -/
def replDashes (s : List Nat) : List Nat :=
  s.map fun c => if c = 0x2013 ∨ c = 0x2014 then 45 else c

/-- Sanitizer step: horizontal ellipsis to three dots (46). -/
def replEllipsis (s : List Nat) : List Nat :=
  s.flatMap fun c => if c = 0x2026 then [46, 46, 46] else [c]

/-- Sanitizer step: `/[áàâäã]/gi` to `a` (case-insensitive, so the uppercase forms match too). -/
def replA (s : List Nat) : List Nat :=
  s.map fun c =>
    if c = 0xE1 ∨ c = 0xE0 ∨ c = 0xE2 ∨ c = 0xE4 ∨ c = 0xE3 ∨
       c = 0xC1 ∨ c = 0xC0 ∨ c = 0xC2 ∨ c = 0xC4 ∨ c = 0xC3 then 97 else c

/-- Sanitizer step: `/[éèêë]/gi` to `e`. -/
def replE (s : List Nat) : List Nat :=
  s.map fun c =>
    if c = 0xE9 ∨ c = 0xE8 ∨ c = 0xEA ∨ c = 0xEB ∨
       c = 0xC9 ∨ c = 0xC8 ∨ c = 0xCA ∨ c = 0xCB then 101 else c

/-- Sanitizer step: `/[íìîï]/gi` to `i`. -/
def replI (s : List Nat) : List Nat :=
  s.map fun c =>
    if c = 0xED ∨ c = 0xEC ∨ c = 0xEE ∨ c = 0xEF ∨
       c = 0xCD ∨ c = 0xCC ∨ c = 0xCE ∨ c = 0xCF then 105 else c

/-- Sanitizer step: `/[óòôöõ]/gi` to `o`. -/
def replO (s : List Nat) : List Nat :=
  s.map fun c =>
    if c = 0xF3 ∨ c = 0xF2 ∨ c = 0xF4 ∨ c = 0xF6 ∨ c = 0xF5 ∨
       c = 0xD3 ∨ c = 0xD2 ∨ c = 0xD4 ∨ c = 0xD6 ∨ c = 0xD5 then 111 else c

/-- Sanitizer step: `/[úùûü]/gi` to `u`. -/
def replU (s : List Nat) : List Nat :=
  s.map fun c =>
    if c = 0xFA ∨ c = 0xF9 ∨ c = 0xFB ∨ c = 0xFC ∨
       c = 0xDA ∨ c = 0xD9 ∨ c = 0xDB ∨ c = 0xDC then 117 else c

/-- Sanitizer step: `/[ñ]/gi` to `n`. -/
def replN (s : List Nat) : List Nat :=
  s.map fun c => if c = 0xF1 ∨ c = 0xD1 then 110 else c

/-- Sanitizer step: `/[ç]/gi` to `c`. -/
def replC (s : List Nat) : List Nat :=
  s.map fun c => if c = 0xE7 ∨ c = 0xC7 then 99 else c

/-- Character class kept by `/[^\x20-\x7E\n\r\t]/g` removal: printable ASCII, LF, CR, TAB. -/
def isKeptAscii (c : Nat) : Bool :=
  (32 ≤ c && c ≤ 126) || c = 10 || c = 13 || c = 9

/-- Sanitizer step: remove any remaining non-ASCII characters except basic whitespace. -/
def asciiFilter (s : List Nat) : List Nat :=
  s.filter isKeptAscii

/-- The `encode` of the `base-64` package: rejects code units above 255. -/
def transportEncode (s : List Nat) : Option (List Nat) :=
  if s.all fun c => c < 256 then some (b64encode s) else none

/-- Sanitizer step: ensure proper encoding by testing encode/decode; on a
mismatch or an encoding failure, clean more aggressively. -/
def encodeVerify (s : List Nat) : List Nat :=
  match transportEncode s with
  | some e => if b64decode e = s then s else asciiFilter s
  | none => asciiFilter s

/-- The cleaning passes of `sanitizeContent` in source order: BOM strip,
line-ending normalization, control-character removal, specials removal, the
eleven transliteration replaces, then the final non-ASCII filter. -/
def sanitizeCore (s : List Nat) : List Nat :=
  asciiFilter (replC (replN (replU (replO (replI (replE (replA (replEllipsis (replDashes
    (replSingleQuotes (replDoubleQuotes (removeSpecials (removeCtrl (crToLf (replaceCRLF
    (stripBOM s))))))))))))))))

/-- `GitHubApiService.sanitizeContent`, the full pipeline: empty input short
circuit, cleaning passes, encode/decode verification, final-newline append. -/
def sanitizeContent (s : List Nat) : List Nat :=
  if s = [] then []
  else
    let s7 := encodeVerify (sanitizeCore s)
    if s7.getLast? = some 10 then s7 else s7 ++ [10]

/-- The fixed accent/punctuation transliteration table of the sanitizer, as
(source code unit, replacement code units) pairs; uppercase accented forms
are included because the source regexes carry the `i` flag. -/
def translitPairs : List (Nat × List Nat) :=
  [(0x201C, [34]), (0x201D, [34]), (0x2018, [39]), (0x2019, [39]),
   (0x2013, [45]), (0x2014, [45]), (0x2026, [46, 46, 46]),
   (0xE1, [97]), (0xE0, [97]), (0xE2, [97]), (0xE4, [97]), (0xE3, [97]),
   (0xC1, [97]), (0xC0, [97]), (0xC2, [97]), (0xC4, [97]), (0xC3, [97]),
   (0xE9, [101]), (0xE8, [101]), (0xEA, [101]), (0xEB, [101]),
   (0xC9, [101]), (0xC8, [101]), (0xCA, [101]), (0xCB, [101]),
   (0xED, [105]), (0xEC, [105]), (0xEE, [105]), (0xEF, [105]),
   (0xCD, [105]), (0xCC, [105]), (0xCE, [105]), (0xCF, [105]),
   (0xF3, [111]), (0xF2, [111]), (0xF4, [111]), (0xF6, [111]), (0xF5, [111]),
   (0xD3, [111]), (0xD2, [111]), (0xD4, [111]), (0xD6, [111]), (0xD5, [111]),
   (0xFA, [117]), (0xF9, [117]), (0xFB, [117]), (0xFC, [117]),
   (0xDA, [117]), (0xD9, [117]), (0xDB, [117]), (0xDC, [117]),
   (0xF1, [110]), (0xD1, [110]), (0xE7, [99]), (0xC7, [99])]

/-! ### Publish gate state (`GlobalStateManager` and the `SyncService` mutex) -/

/-- State of the `GlobalStateManager` singleton (`globalState.ts`). -/
structure GState where
  lastGitHubActionTime : Int
deriving Repr, DecidableEq

/-- The `SyncService` in-flight mutex fields. -/
structure SState where
  isPublishing : Bool
  publishingStartTime : Int
deriving Repr, DecidableEq

/-- `GITHUB_ACTION_COOLDOWN = 60000` (one minute, in milliseconds). -/
def GITHUB_ACTION_COOLDOWN : Int := 60000

/-- `PUBLISH_TIMEOUT = 300000` (five minutes, in milliseconds). -/
def PUBLISH_TIMEOUT : Int := 300000

/-- `GlobalStateManager.canTriggerGitHubAction`, with the clock passed explicitly. -/
def canTriggerGitHubAction (g : GState) (now : Int) : Bool :=
  now - g.lastGitHubActionTime ≥ GITHUB_ACTION_COOLDOWN

/-- `GlobalStateManager.getRemainingCooldown`: seconds remaining, rounded up
(`Math.ceil(remainingTime / 1000)`), zero once the cooldown has elapsed. -/
def getRemainingCooldown (g : GState) (now : Int) : Nat :=
  let remainingTime := GITHUB_ACTION_COOLDOWN - (now - g.lastGitHubActionTime)
  if remainingTime > 0 then (remainingTime.toNat + 999) / 1000 else 0

/-- `GlobalStateManager.markGitHubActionTriggered`.  The source defines this
method but no call site for it exists anywhere in the repository. -/
def markGitHubActionTriggered (now : Int) : GState :=
  { lastGitHubActionTime := now }

/-! ### Build-trigger decision (`GitHubApiService.triggerPagesBuildIfNeeded`) -/

/-- One record of `GET /pages/builds`, newest first; `createdAt` is
`new Date(created_at).getTime()`. -/
structure PagesBuild where
  status : String
  createdAt : Int
deriving Repr, DecidableEq

/-- The pure decision core of `triggerPagesBuildIfNeeded`: trigger unless the
most recent build is `building`/`built` and started less than two minutes ago. -/
def shouldTriggerPagesBuild (builds : List PagesBuild) (now : Int) : Bool :=
  match builds with
  | [] => true
  | latest :: _ =>
      if now - latest.createdAt < 120000 ∧ (latest.status = "building" ∨ latest.status = "built")
      then false
      else true

/-! ### The publish algorithm (`SyncService.publishAndRefreshGitHubPages`)

Remote calls are represented by an environment: for each call the
algorithm makes, the environment says whether it resolves or rejects and
with which error message.  The run is summarized by the returned
`SyncResult`, the final gate state, and the ordered trace of attempted
remote operations. -/

/-- One attempted operation of a publish run, in program order.  Write
attempts record whether the attempt succeeded. -/
inductive Action where
  | testConn
  | readRemoteSiteFiles
  | writeJekyllConfig (ok : Bool)
  | writeCss (ok : Bool)
  | writeLayout (ok : Bool)
  | writeHomepage (ok : Bool)
  | writeReadme (ok : Bool)
  | listRemotePosts
  | writePost (filename : String) (isUpdate : Bool) (ok : Bool)
  | enablePages (ok : Bool)
  | listPagesBuilds
  | triggerPagesBuild (ok : Bool)
  | saveSettings
deriving Repr, DecidableEq

/-- One entry of the run's `errors` array, tagged with the artifact whose
write failed, as pushed by the source (`errors.push(...)`). -/
inductive PubError where
  | generic (msg : String)
  | jekyll (msg : String)
  | css (msg : String)
  | layout (msg : String)
  | homepage (msg : String)
  | readme (msg : String)
  | post (filename : String) (msg : String)
  | pages (msg : String)
deriving Repr, DecidableEq

/-- The error string pushed for each entry, matching the source templates. -/
def errText : PubError → String
  | PubError.generic m => m
  | PubError.jekyll m => "Jekyll config: " ++ m
  | PubError.css m => "CSS style: " ++ m
  | PubError.layout m => "Default layout: " ++ m
  | PubError.homepage m => "Homepage: " ++ m
  | PubError.readme m => "README: " ++ m
  | PubError.post fn m => "Post " ++ (fn ++ (": " ++ m))
  | PubError.pages m => "Pages setup: " ++ m

/-- The `SyncResult` record returned by the publish operation. -/
structure SyncResult where
  success : Bool
  message : String
  synced : Nat
  errors : List PubError
  pagesUrl : String
deriving Repr, DecidableEq

/-- Which return site of `publishAndRefreshGitHubPages` produced the result. -/
inductive RunOutcome where
  | deniedInProgress
  | deniedCooldown
  | notConfigured
  | threw
  | completed
deriving Repr, DecidableEq

/-- Full observable outcome of one invocation: result, return site, whether
the in-flight mutex was acquired, final gate state, and the remote-call trace. -/
structure PubResult where
  res : SyncResult
  outcome : RunOutcome
  acquired : Bool
  g : GState
  st : SState
  actions : List Action
deriving Repr, DecidableEq

/-- A local post; only the filename is observable in the publish trace (the
rendered body is passed to the store but inspected by no modelled property). -/
structure LocalPost where
  filename : String
deriving Repr, DecidableEq

/-- Environment of one publish invocation: the clock at entry, the local
configuration and posts, and the resolve/reject behaviour of each remote
call (`none` = resolves, `some msg` = rejects with message `msg`). -/
structure PublishEnv where
  now : Int
  configured : Bool
  connErr : Option String
  localPosts : List LocalPost
  getPostsOk : Bool
  existingShas : List (String × String)
  jekyllErr : Option String
  cssErr : Option String
  layoutErr : Option String
  homepageErr : Option String
  readmeErr : Option String
  postErr : Nat → Option String
  enableErr : Option String
  pagesUrlVal : String
  buildsFetchErr : Option String
  recentBuilds : List PagesBuild
  triggerErr : Option String

/-- One step-4 artifact write: `try { update…(); synced++ } catch { errors.push(tag) }`. -/
def artifactStep (err : Option String) (mk : String → PubError) (act : Bool → Action)
    (acc : Nat × List PubError × List Action) : Nat × List PubError × List Action :=
  match err with
  | none => (acc.1 + 1, acc.2.1, acc.2.2 ++ [act true])
  | some m => (acc.1, acc.2.1 ++ [mk m], acc.2.2 ++ [act false])

/-- The step-5 post loop: every post is attempted in order, each failure is
recorded independently (`Post <filename>: <msg>`) and aborts nothing. -/
def postsLoop (shaMap : List (String × String)) (perr : Nat → Option String) :
    Nat → List LocalPost → Nat × List PubError × List Action
  | _, [] => (0, [], [])
  | i, p :: rest =>
      let isUpd := (shaMap.find? fun q => q.1 == p.filename).isSome
      let r := postsLoop shaMap perr (i + 1) rest
      match perr i with
      | none => (r.1 + 1, r.2.1, Action.writePost p.filename isUpd true :: r.2.2)
      | some m => (r.1, PubError.post p.filename m :: r.2.1,
          Action.writePost p.filename isUpd false :: r.2.2)

/-- `GitHubApiService.triggerPagesBuildIfNeeded`: list recent builds, then
trigger only if `shouldTriggerPagesBuild` advises it; a rejection anywhere
surfaces as a thrown error. -/
def triggerPagesBuildIfNeeded (e : PublishEnv) : Except String Bool × List Action :=
  match e.buildsFetchErr with
  | some m => (Except.error m, [Action.listPagesBuilds])
  | none =>
      if shouldTriggerPagesBuild e.recentBuilds e.now then
        match e.triggerErr with
        | some m => (Except.error m, [Action.listPagesBuilds, Action.triggerPagesBuild false])
        | none => (Except.ok true, [Action.listPagesBuilds, Action.triggerPagesBuild true])
      else (Except.ok false, [Action.listPagesBuilds])

/-- Step 6: enable GitHub Pages; only when the error list is empty at this
point is the build-trigger decision consulted.  Any throw in this step is
caught and recorded as a `Pages setup:` error. -/
def pagesStep (e : PublishEnv) (errs : List PubError) : List PubError × String × List Action :=
  match e.enableErr with
  | some m => (errs ++ [PubError.pages m], "", [Action.enablePages false])
  | none =>
      if errs = [] then
        match triggerPagesBuildIfNeeded e with
        | (Except.ok _, acts) => (errs, e.pagesUrlVal, Action.enablePages true :: acts)
        | (Except.error m, acts) =>
            (errs ++ [PubError.pages m], e.pagesUrlVal, Action.enablePages true :: acts)
      else (errs, e.pagesUrlVal, [Action.enablePages true])

/-- Steps 4–5: the five site-artifact writes in source order, the remote
post listing, then the per-post write loop. -/
def step45 (e : PublishEnv) : Nat × List PubError × List Action :=
  let r1 := artifactStep e.jekyllErr PubError.jekyll Action.writeJekyllConfig (0, [], [])
  let r2 := artifactStep e.cssErr PubError.css Action.writeCss r1
  let r3 := artifactStep e.layoutErr PubError.layout Action.writeLayout r2
  let r4 := artifactStep e.homepageErr PubError.homepage Action.writeHomepage r3
  let r5 := artifactStep e.readmeErr PubError.readme Action.writeReadme r4
  let shaMap := if e.getPostsOk then e.existingShas else []
  let rp := postsLoop shaMap e.postErr 0 e.localPosts
  (r5.1 + rp.1, r5.2.1 ++ rp.2.1, r5.2.2 ++ Action.listRemotePosts :: rp.2.2)

/-- The body of the big `try` block: configuration check, connection test,
steps 4–6, and the final bookkeeping write. -/
def publishBody (e : PublishEnv) : SyncResult × List Action :=
  if e.configured = false then
    ({ success := false, message := "GitHub not configured", synced := 0,
       errors := [PubError.generic "Please configure GitHub settings first"], pagesUrl := "" }, [])
  else
    match e.connErr with
    | some m =>
        ({ success := false, message := "Publish failed", synced := 0,
           errors := [PubError.generic m], pagesUrl := "" }, [Action.testConn])
    | none =>
        let r := step45 e
        let p := pagesStep e r.2.1
        let msg :=
          if p.2.1 = "" then "Published " ++ toString r.1 ++ " items to GitHub"
          else "Published " ++ toString r.1 ++ " items to GitHub. Site: " ++ p.2.1
        ({ success := p.1 = [], message := msg, synced := r.1, errors := p.1, pagesUrl := p.2.1 },
          Action.testConn :: Action.readRemoteSiteFiles :: r.2.2 ++ p.2.2 ++ [Action.saveSettings])

/-- Decision of the admission gate at the head of the publish operation. -/
inductive GateDecision where
  | denyInProgress
  | denyCooldown
  | proceed
deriving Repr, DecidableEq

/-- The gate (source lines 328–360): mutex check with stale-lock reclaim,
then the global cooldown check.  Returns the decision and the gate state as
left by the check itself (a stale mutex is reset even when the cooldown then
denies). -/
def publishGate (g : GState) (s : SState) (now : Int) : GateDecision × SState :=
  if s.isPublishing = true ∧ ¬(now - s.publishingStartTime > PUBLISH_TIMEOUT) then
    (GateDecision.denyInProgress, s)
  else
    let s0 : SState :=
      if s.isPublishing = true then { isPublishing := false, publishingStartTime := 0 } else s
    if canTriggerGitHubAction g now = false then (GateDecision.denyCooldown, s0)
    else (GateDecision.proceed, { isPublishing := true, publishingStartTime := now })

/-- `SyncService.publishAndRefreshGitHubPages`.  Note that no path updates
`GState`: the source never calls `markGitHubActionTriggered`, so the
returned `g` is always the input `g`.  The `finally` block always clears the
mutex after the gate admits. -/
def publishAndRefreshGitHubPages (e : PublishEnv) (g : GState) (s : SState) : PubResult :=
  match publishGate g s e.now with
  | (GateDecision.denyInProgress, s1) =>
      { res := { success := false, message := "Publication already in progress", synced := 0,
                 errors := [PubError.generic "Another publication is already running. Please wait."],
                 pagesUrl := "" },
        outcome := RunOutcome.deniedInProgress, acquired := false, g := g, st := s1, actions := [] }
  | (GateDecision.denyCooldown, s1) =>
      let r := getRemainingCooldown g e.now
      { res := { success := false,
                 message := "Please wait " ++ toString r ++ " seconds before publishing again",
                 synced := 0,
                 errors := [PubError.generic ("Global cooldown active. Wait " ++ toString r ++
                   " seconds to avoid multiple GitHub Actions.")],
                 pagesUrl := "" },
        outcome := RunOutcome.deniedCooldown, acquired := false, g := g, st := s1, actions := [] }
  | (GateDecision.proceed, _) =>
      let b := publishBody e
      let out :=
        if e.configured = false then RunOutcome.notConfigured
        else if e.connErr.isSome = true then RunOutcome.threw
        else RunOutcome.completed
      { res := b.1, outcome := out, acquired := true, g := g,
        st := { isPublishing := false, publishingStartTime := 0 }, actions := b.2 }

/-! ### Concurrent-invocation semantics

JavaScript interleaves invocations only at `await` points; the gate check
and acquisition (no `await` between them) are one atomic step.  A world
tracks the shared gate state and how many invocations are past the gate and
not yet finished. -/

/-- Shared state plus the number of invocations currently past the gate. -/
structure World where
  g : GState
  s : SState
  active : Nat
deriving Repr, DecidableEq

/-- Interleaving events: a new invocation hits the gate at time `now`, or a
running invocation finishes (its `finally` block clears the mutex). -/
inductive PubEvent where
  | arrive (now : Int)
  | finish
deriving Repr, DecidableEq

/-- One interleaving step. -/
def worldStep (w : World) : PubEvent → World
  | PubEvent.arrive now =>
      match publishGate w.g w.s now with
      | (GateDecision.denyInProgress, s1) => { w with s := s1 }
      | (GateDecision.denyCooldown, s1) => { w with s := s1 }
      | (GateDecision.proceed, s1) => { g := w.g, s := s1, active := w.active + 1 }
  | PubEvent.finish =>
      if w.active > 0 then
        { g := w.g, s := { isPublishing := false, publishingStartTime := 0 },
          active := w.active - 1 }
      else w

/-- Run a sequence of interleaving events. -/
def worldRun (w : World) (evs : List PubEvent) : World :=
  evs.foldl worldStep w

/-- The mutex agrees with the number of active invocations (in particular at
most one invocation is past the gate). -/
def mutexConsistent (w : World) : Bool :=
  (!w.s.isPublishing || w.active == 1) && (w.s.isPublishing || w.active == 0)

/-- No arrival in the event sequence finds a held mutex already past the
5-minute stale timeout. -/
def noStaleArrivals : World → List PubEvent → Bool
  | _, [] => true
  | w, PubEvent.arrive n :: rest =>
      (!w.s.isPublishing || decide (n - w.s.publishingStartTime ≤ PUBLISH_TIMEOUT)) &&
        noStaleArrivals (worldStep w (PubEvent.arrive n)) rest
  | w, PubEvent.finish :: rest => noStaleArrivals (worldStep w PubEvent.finish) rest

/-! ### Trace projections used by the claims -/

/-- The filename of a post-write attempt, if the action is one. -/
def writePostName : Action → Option String
  | Action.writePost fn _ _ => some fn
  | _ => none

/-- Whether the action is a successful post write. -/
def isPostSuccess : Action → Bool
  | Action.writePost _ _ ok => ok
  | _ => false

/-- Whether the action writes site content (configuration, homepage, README,
CSS, layout, or a post). -/
def isContentWrite : Action → Bool
  | Action.writeJekyllConfig _ => true
  | Action.writeCss _ => true
  | Action.writeLayout _ => true
  | Action.writeHomepage _ => true
  | Action.writeReadme _ => true
  | Action.writePost _ _ _ => true
  | _ => false

/-- Fresh cooldown state: no trigger time recorded (`lastGitHubActionTime = 0`). -/
def gstate0 : GState := { lastGitHubActionTime := 0 }

/-- Idle mutex: not publishing. -/
def mutexIdle : SState := { isPublishing := false, publishingStartTime := 0 }

/-- Held mutex: publishing since time `t`. -/
def mutexHeldAt (t : Int) : SState := { isPublishing := true, publishingStartTime := t }

/-- Quiescent world: fresh cooldown state, idle mutex, no active invocation. -/
def world0 : World := { g := gstate0, s := mutexIdle, active := 0 }

/-- A fully-resolving environment used to instantiate the theorems at
concrete inputs. -/
def baseEnv (now : Int) (posts : List LocalPost) : PublishEnv :=
  { now := now, configured := true, connErr := none, localPosts := posts,
    getPostsOk := true, existingShas := [], jekyllErr := none, cssErr := none,
    layoutErr := none, homepageErr := none, readmeErr := none,
    postErr := fun _ => none, enableErr := none,
    pagesUrlVal := "https://user.github.io/blog/", buildsFetchErr := none,
    recentBuilds := [], triggerErr := none }

/-- Concrete environment with three posts where only the second post's write
rejects (with the source's optimistic-concurrency conflict message). -/
def c8Env : PublishEnv :=
  { baseEnv 1000000
      [{ filename := "2024-01-01-a.md" }, { filename := "2024-01-02-b.md" },
       { filename := "2024-01-03-c.md" }] with
    postErr := fun i =>
      if i = 1 then
        some "Post has been modified by someone else. Please refresh and try again."
      else none }

/-! ## Transport-encoding lemmas -/

theorem b64inv_tbl_fin : ∀ x : Fin 64, b64inv (b64tbl x.val) = x.val := by decide

theorem b64inv_tbl {x : Nat} (h : x < 64) : b64inv (b64tbl x) = x :=
  b64inv_tbl_fin ⟨x, h⟩

theorem b64tbl_ne_61 (n : Nat) : b64tbl n ≠ 61 := by
  unfold b64tbl
  split <;> try omega
  split <;> try omega
  split <;> try omega
  split <;> omega

/-- The transport encoding round-trips on byte lists. -/
theorem b64_roundtrip : ∀ s : List Nat, (∀ c ∈ s, c < 256) → b64decode (b64encode s) = s := by
  intro s
  induction s using b64encode.induct with
  | case1 =>
      intro _; rfl
  | case2 a =>
      intro h
      have ha : a < 256 := h a (by simp)
      simp only [b64encode, b64decode]
      rw [if_pos trivial]
      rw [b64inv_tbl (by omega), b64inv_tbl (by omega)]
      simp only [List.cons.injEq, and_true]
      omega
  | case3 a b =>
      intro h
      have ha : a < 256 := h a (by simp)
      have hb : b < 256 := h b (by simp)
      simp only [b64encode, b64decode]
      rw [if_neg (b64tbl_ne_61 _), if_pos trivial]
      rw [b64inv_tbl (by omega), b64inv_tbl (by omega), b64inv_tbl (by omega)]
      simp only [List.cons.injEq, and_true]
      constructor
      · omega
      · omega
  | case4 a b c rest ih =>
      intro h
      have ha : a < 256 := h a (by simp)
      have hb : b < 256 := h b (by simp)
      have hc : c < 256 := h c (by simp)
      have hrest : ∀ x ∈ rest, x < 256 := by
        intro x hx; exact h x (by simp [hx])
      simp only [b64encode, b64decode]
      rw [if_neg (b64tbl_ne_61 _), if_neg (b64tbl_ne_61 _)]
      rw [b64inv_tbl (by omega), b64inv_tbl (by omega), b64inv_tbl (by omega),
        b64inv_tbl (by omega)]
      rw [ih hrest]
      simp only [List.cons.injEq, and_true]
      refine ⟨by omega, by omega, by omega⟩

/-! ## Sanitizer lemmas -/

theorem map_eq_self (f : Nat → Nat) (t : List Nat) (h : ∀ c ∈ t, f c = c) : t.map f = t := by
  induction t with
  | nil => rfl
  | cons c rest ih =>
      simp only [List.map_cons]
      rw [h c (by simp), ih fun d hd => h d (by simp [hd])]

theorem flatMap_eq_self (f : Nat → List Nat) (t : List Nat) (h : ∀ c ∈ t, f c = [c]) :
    t.flatMap f = t := by
  induction t with
  | nil => rfl
  | cons c rest ih =>
      rw [List.flatMap_cons, h c (by simp), ih fun d hd => h d (by simp [hd])]
      rfl

theorem no13_map (f : Nat → Nat) (hf : ∀ d, f d = 13 → d = 13) (t : List Nat) (h : 13 ∉ t) :
    13 ∉ t.map f := by
  intro hc
  obtain ⟨d, hd, he⟩ := List.mem_map.1 hc
  exact h (hf d he ▸ hd)

theorem no13_filter (p : Nat → Bool) (t : List Nat) (h : 13 ∉ t) : 13 ∉ t.filter p :=
  fun hc => h (List.mem_filter.1 hc).1

theorem no13_crToLf (t : List Nat) : 13 ∉ crToLf t := by
  intro hc
  obtain ⟨d, hd, he⟩ := List.mem_map.1 hc
  split at he <;> omega

theorem no13_replEllipsis (t : List Nat) (h : 13 ∉ t) : 13 ∉ replEllipsis t := by
  intro hc
  obtain ⟨d, hd, he⟩ := List.mem_flatMap.1 hc
  split at he
  · simp at he
  · simp only [List.mem_singleton] at he
    exact h (he ▸ hd)

/-- No carriage return survives the transliteration passes. -/
theorem no13_translit (t : List Nat) (h : 13 ∉ t) :
    13 ∉ replC (replN (replU (replO (replI (replE (replA (replEllipsis (replDashes
      (replSingleQuotes (replDoubleQuotes t)))))))))) := by
  have h1 : 13 ∉ replDoubleQuotes t :=
    no13_map _ (fun d hd => by split at hd <;> omega) t h
  have h2 : 13 ∉ replSingleQuotes (replDoubleQuotes t) :=
    no13_map _ (fun d hd => by split at hd <;> omega) _ h1
  have h3 : 13 ∉ replDashes (replSingleQuotes (replDoubleQuotes t)) :=
    no13_map _ (fun d hd => by split at hd <;> omega) _ h2
  have h4 : 13 ∉ replEllipsis (replDashes (replSingleQuotes (replDoubleQuotes t))) :=
    no13_replEllipsis _ h3
  have h5 : 13 ∉ replA (replEllipsis (replDashes (replSingleQuotes (replDoubleQuotes t)))) :=
    no13_map _ (fun d hd => by split at hd <;> omega) _ h4
  have h6 : 13 ∉ replE (replA (replEllipsis (replDashes (replSingleQuotes
      (replDoubleQuotes t))))) :=
    no13_map _ (fun d hd => by split at hd <;> omega) _ h5
  have h7 : 13 ∉ replI (replE (replA (replEllipsis (replDashes (replSingleQuotes
      (replDoubleQuotes t)))))) :=
    no13_map _ (fun d hd => by split at hd <;> omega) _ h6
  have h8 : 13 ∉ replO (replI (replE (replA (replEllipsis (replDashes (replSingleQuotes
      (replDoubleQuotes t))))))) :=
    no13_map _ (fun d hd => by split at hd <;> omega) _ h7
  have h9 : 13 ∉ replU (replO (replI (replE (replA (replEllipsis (replDashes (replSingleQuotes
      (replDoubleQuotes t)))))))) :=
    no13_map _ (fun d hd => by split at hd <;> omega) _ h8
  have h10 : 13 ∉ replN (replU (replO (replI (replE (replA (replEllipsis (replDashes
      (replSingleQuotes (replDoubleQuotes t))))))))) :=
    no13_map _ (fun d hd => by split at hd <;> omega) _ h9
  exact no13_map _ (fun d hd => by split at hd <;> omega) _ h10

/-- No carriage return survives the cleaning pipeline. -/
theorem no13_sanitizeCore_inner (s : List Nat) :
    13 ∉ replC (replN (replU (replO (replI (replE (replA (replEllipsis (replDashes
      (replSingleQuotes (replDoubleQuotes (removeSpecials (removeCtrl (crToLf (replaceCRLF
      (stripBOM s))))))))))))))) := by
  have h0 : 13 ∉ crToLf (replaceCRLF (stripBOM s)) := no13_crToLf _
  have h1 : 13 ∉ removeCtrl (crToLf (replaceCRLF (stripBOM s))) := no13_filter _ _ h0
  have h2 : 13 ∉ removeSpecials (removeCtrl (crToLf (replaceCRLF (stripBOM s)))) :=
    no13_filter _ _ h1
  exact no13_translit _ h2

/-- Every character surviving the cleaning passes is TAB, LF, or printable ASCII. -/
theorem mem_sanitizeCore (s : List Nat) :
    ∀ c ∈ sanitizeCore s, c = 9 ∨ c = 10 ∨ (32 ≤ c ∧ c ≤ 126) := by
  intro c hc
  unfold sanitizeCore asciiFilter at hc
  have hmem := List.mem_filter.1 hc
  have hk := hmem.2
  have h13 : c ≠ 13 := by
    intro hc13
    exact no13_sanitizeCore_inner s (hc13 ▸ hmem.1)
  simp only [isKeptAscii, Bool.or_eq_true, Bool.and_eq_true, decide_eq_true_eq] at hk
  omega

theorem encodeVerify_eq_self (t : List Nat) (h : ∀ c ∈ t, c < 256) : encodeVerify t = t := by
  have henc : transportEncode t = some (b64encode t) := by
    unfold transportEncode
    rw [if_pos]
    simpa using h
  unfold encodeVerify
  rw [henc]
  simp [b64_roundtrip t h]

theorem encodeVerify_sanitizeCore (s : List Nat) :
    encodeVerify (sanitizeCore s) = sanitizeCore s := by
  refine encodeVerify_eq_self _ fun c hc => ?_
  have := mem_sanitizeCore s c hc
  omega

/-- Closed form of the sanitizer: the encode/decode self-check never alters
the cleaned content, so only the final-newline step remains. -/
theorem sanitizeContent_eq (s : List Nat) :
    sanitizeContent s =
      if s = [] then []
      else if (sanitizeCore s).getLast? = some 10 then sanitizeCore s
      else sanitizeCore s ++ [10] := by
  simp only [sanitizeContent, encodeVerify_sanitizeCore]

theorem getLast?_append_singleton (l : List Nat) (a : Nat) : (l ++ [a]).getLast? = some a := by
  induction l with
  | nil => rfl
  | cons x xs ih =>
      cases xs with
      | nil => rfl
      | cons y ys =>
          show (x :: y :: (ys ++ [a])).getLast? = some a
          rw [List.getLast?_cons_cons]
          exact ih

/-- Every character of the sanitizer output is TAB, LF, or printable ASCII. -/
theorem mem_sanitizeContent (s : List Nat) :
    ∀ c ∈ sanitizeContent s, c = 9 ∨ c = 10 ∨ (32 ≤ c ∧ c ≤ 126) := by
  intro c hc
  rw [sanitizeContent_eq] at hc
  by_cases hs : s = []
  · rw [if_pos hs] at hc; simp at hc
  · rw [if_neg hs] at hc
    split at hc
    · exact mem_sanitizeCore s c hc
    · rcases List.mem_append.1 hc with h | h
      · exact mem_sanitizeCore s c h
      · simp only [List.mem_singleton] at h
        omega

/-- Non-empty input always sanitizes to output ending in a newline. -/
theorem sanitizeContent_getLast (s : List Nat) (h : s ≠ []) :
    (sanitizeContent s).getLast? = some 10 := by
  rw [sanitizeContent_eq, if_neg h]
  split
  · assumption
  · exact getLast?_append_singleton _ _

theorem stripBOM_eq_self (t : List Nat) (h : 0xFEFF ∉ t) : stripBOM t = t := by
  unfold stripBOM
  split
  · simp at h
  · rfl

theorem replaceCRLF_eq_self (t : List Nat) (h : 13 ∉ t) : replaceCRLF t = t := by
  induction t using replaceCRLF.induct with
  | case1 => rfl
  | case2 c => rfl
  | case3 c d rest =>
      simp only [List.mem_cons, not_or] at h
      unfold replaceCRLF
      rename_i hcond ih
      rw [if_pos hcond]
      exact absurd hcond.1.symm h.1
  | case4 c d rest =>
      rename_i hcond ih
      unfold replaceCRLF
      rw [if_neg hcond]
      rw [ih (by simp only [List.mem_cons, not_or] at h ⊢; exact ⟨h.2.1, h.2.2⟩)]

theorem crToLf_eq_self (t : List Nat) (h : 13 ∉ t) : crToLf t = t := by
  refine map_eq_self _ _ fun c hc => ?_
  rw [if_neg]
  intro hc13
  exact h (hc13 ▸ hc)

/-- The cleaning passes are the identity on lists of TAB, LF, and printable
ASCII characters. -/
theorem sanitizeCore_eq_self (t : List Nat)
    (h : ∀ c ∈ t, c = 9 ∨ c = 10 ∨ (32 ≤ c ∧ c ≤ 126)) : sanitizeCore t = t := by
  have h13 : 13 ∉ t := by intro hm; have := h 13 hm; omega
  have hbom : 0xFEFF ∉ t := by intro hm; have := h _ hm; omega
  unfold sanitizeCore
  rw [stripBOM_eq_self t hbom, replaceCRLF_eq_self t h13, crToLf_eq_self t h13]
  rw [show removeCtrl t = t from List.filter_eq_self.2 fun c hc => by
    have := h c hc
    simp only [isCtrlRemoved, Bool.not_eq_eq_eq_not, Bool.not_true, Bool.or_eq_false_iff,
      Bool.and_eq_false_iff, decide_eq_false_iff_not]
    omega]
  rw [show removeSpecials t = t from List.filter_eq_self.2 fun c hc => by
    have := h c hc
    simp only [Bool.not_eq_eq_eq_not, Bool.not_true, Bool.and_eq_false_iff,
      decide_eq_false_iff_not]
    omega]
  rw [show replDoubleQuotes t = t from map_eq_self _ _ fun c hc => by
    have := h c hc; rw [if_neg]; omega]
  rw [show replSingleQuotes t = t from map_eq_self _ _ fun c hc => by
    have := h c hc; rw [if_neg]; omega]
  rw [show replDashes t = t from map_eq_self _ _ fun c hc => by
    have := h c hc; rw [if_neg]; omega]
  rw [show replEllipsis t = t from flatMap_eq_self _ _ fun c hc => by
    have := h c hc; rw [if_neg]; omega]
  rw [show replA t = t from map_eq_self _ _ fun c hc => by
    have := h c hc; rw [if_neg]; omega]
  rw [show replE t = t from map_eq_self _ _ fun c hc => by
    have := h c hc; rw [if_neg]; omega]
  rw [show replI t = t from map_eq_self _ _ fun c hc => by
    have := h c hc; rw [if_neg]; omega]
  rw [show replO t = t from map_eq_self _ _ fun c hc => by
    have := h c hc; rw [if_neg]; omega]
  rw [show replU t = t from map_eq_self _ _ fun c hc => by
    have := h c hc; rw [if_neg]; omega]
  rw [show replN t = t from map_eq_self _ _ fun c hc => by
    have := h c hc; rw [if_neg]; omega]
  rw [show replC t = t from map_eq_self _ _ fun c hc => by
    have := h c hc; rw [if_neg]; omega]
  exact List.filter_eq_self.2 fun c hc => by
    have := h c hc
    simp only [isKeptAscii, Bool.or_eq_true, Bool.and_eq_true, decide_eq_true_eq]
    omega

/-! ## Gate and world lemmas -/

theorem mutexConsistent_step (w : World) (ev : PubEvent)
    (hm : mutexConsistent w = true)
    (hns : ∀ n, ev = PubEvent.arrive n → w.s.isPublishing = true →
      n - w.s.publishingStartTime ≤ PUBLISH_TIMEOUT) :
    mutexConsistent (worldStep w ev) = true := by
  simp only [mutexConsistent, Bool.and_eq_true, Bool.or_eq_true, Bool.not_eq_true',
    beq_iff_eq] at hm
  cases ev with
  | finish =>
      simp only [worldStep]
      split
      · simp only [mutexConsistent, Bool.and_eq_true, Bool.or_eq_true, Bool.not_eq_true',
          beq_iff_eq]
        rcases hm with ⟨h1, h2⟩
        cases hp : w.s.isPublishing <;> simp_all
      · simp only [mutexConsistent, Bool.and_eq_true, Bool.or_eq_true, Bool.not_eq_true',
          beq_iff_eq]
        exact hm
  | arrive n =>
      cases hp : w.s.isPublishing with
      | true =>
          have hstale : n - w.s.publishingStartTime ≤ PUBLISH_TIMEOUT := hns n rfl hp
          have hg : publishGate w.g w.s n = (GateDecision.denyInProgress, w.s) := by
            unfold publishGate
            rw [if_pos ⟨hp, by omega⟩]
          simp only [worldStep, hg]
          simp only [mutexConsistent, Bool.and_eq_true, Bool.or_eq_true, Bool.not_eq_true',
            beq_iff_eq]
          exact hm
      | false =>
          have hactive : w.active = 0 := by
            rcases hm with ⟨-, h2⟩
            rcases h2 with h2 | h2
            · rw [hp] at h2; cases h2
            · exact h2
          have hg0 : ¬(w.s.isPublishing = true ∧ ¬(n - w.s.publishingStartTime > PUBLISH_TIMEOUT)) := by
            rintro ⟨hcon, -⟩
            rw [hp] at hcon; cases hcon
          cases hct : canTriggerGitHubAction w.g n with
          | false =>
              have hg : publishGate w.g w.s n = (GateDecision.denyCooldown, w.s) := by
                unfold publishGate
                rw [if_neg hg0]
                simp [hp, hct]
              simp only [worldStep, hg]
              simp only [mutexConsistent, Bool.and_eq_true, Bool.or_eq_true, Bool.not_eq_true',
                beq_iff_eq]
              exact hm
          | true =>
              have hg : publishGate w.g w.s n =
                  (GateDecision.proceed, { isPublishing := true, publishingStartTime := n }) := by
                unfold publishGate
                rw [if_neg hg0]
                simp [hp, hct]
              simp only [worldStep, hg]
              simp [mutexConsistent, hactive]

theorem noStale_invariant (evs : List PubEvent) (w : World)
    (hm : mutexConsistent w = true) (hns : noStaleArrivals w evs = true) :
    mutexConsistent (worldRun w evs) = true := by
  induction evs generalizing w with
  | nil => exact hm
  | cons ev rest ih =>
      have hrun : worldRun w (ev :: rest) = worldRun (worldStep w ev) rest := by
        simp [worldRun]
      rw [hrun]
      cases ev with
      | arrive n =>
          simp only [noStaleArrivals, Bool.and_eq_true] at hns
          refine ih (worldStep w (PubEvent.arrive n)) ?_ hns.2
          refine mutexConsistent_step w _ hm ?_
          intro m hev hp
          have hmn : m = n := by injection hev with h; omega
          subst hmn
          have h1 := hns.1
          rw [hp] at h1
          simpa using h1
      | finish =>
          simp only [noStaleArrivals] at hns
          refine ih (worldStep w PubEvent.finish) ?_ hns
          refine mutexConsistent_step w _ hm ?_
          intro m hev
          cases hev

theorem active_le_one_of_mutexConsistent (w : World) (h : mutexConsistent w = true) :
    w.active ≤ 1 := by
  simp only [mutexConsistent, Bool.and_eq_true, Bool.or_eq_true, Bool.not_eq_true',
    beq_iff_eq] at h
  rcases h with ⟨h1, h2⟩
  rcases h1 with h1 | h1
  · rcases h2 with h2 | h2
    · rw [h1] at h2; cases h2
    · omega
  · omega

/-! ## Claim theorems -/

/-- C1 (code bug): the source never calls `markGitHubActionTriggered` — no
path of `publishAndRefreshGitHubPages` updates `lastGitHubActionTime` — so
after a completed publish at t=1000000ms the recorded trigger time is still
0, and a second call one millisecond later passes the cooldown gate,
completes, and performs remote writes instead of being denied with a
cooldown-active result.  The claim (and the source's own log line
"Next publication allowed after: now + 60000") says the second call must be
denied. -/
theorem C1_cooldown_never_recorded :
    (publishAndRefreshGitHubPages (baseEnv 1000000 [{ filename := "2024-01-01-a.md" }])
        gstate0 mutexIdle).outcome = RunOutcome.completed ∧
    (publishAndRefreshGitHubPages (baseEnv 1000000 [{ filename := "2024-01-01-a.md" }])
        gstate0 mutexIdle).g = gstate0 ∧
    (publishAndRefreshGitHubPages (baseEnv 1000001 [{ filename := "2024-01-01-a.md" }])
        gstate0 mutexIdle).outcome = RunOutcome.completed ∧
    (publishAndRefreshGitHubPages (baseEnv 1000001 [{ filename := "2024-01-01-a.md" }])
        gstate0 mutexIdle).actions ≠ [] ∧
    markGitHubActionTriggered 1000000 = { lastGitHubActionTime := 1000000 } := by
  refine ⟨by decide, by decide, by decide, by decide, rfl⟩

/-- C2 (amended): provided no arrival finds the mutex already past the
5-minute stale timeout, at most one invocation is past the gate at any
instant; and a call that arrives while one is active and the mutex is not
stale is denied as already-in-progress, attempts no remote operation, and
leaves both the mutex and the cooldown state unchanged.  (The unamended
claim fails: a stale holder is reclaimed, letting a second invocation run
while the first is still unfinished — see the counterexample.) -/
theorem C2_gate_exclusivity_amended :
    (∀ (w : World) (evs : List PubEvent),
      mutexConsistent w = true → noStaleArrivals w evs = true →
      mutexConsistent (worldRun w evs) = true ∧ (worldRun w evs).active ≤ 1) ∧
    (∀ (e : PublishEnv) (g : GState) (s : SState),
      s.isPublishing = true → e.now - s.publishingStartTime ≤ PUBLISH_TIMEOUT →
      (publishAndRefreshGitHubPages e g s).outcome = RunOutcome.deniedInProgress ∧
      (publishAndRefreshGitHubPages e g s).actions = [] ∧
      (publishAndRefreshGitHubPages e g s).st = s ∧
      (publishAndRefreshGitHubPages e g s).g = g) := by
  constructor
  · intro w evs hm hns
    have h := noStale_invariant evs w hm hns
    exact ⟨h, active_le_one_of_mutexConsistent _ h⟩
  · intro e g s hp hstale
    have hg : publishGate g s e.now = (GateDecision.denyInProgress, s) := by
      unfold publishGate
      rw [if_pos ⟨hp, by omega⟩]
    unfold publishAndRefreshGitHubPages
    rw [hg]
    exact ⟨rfl, rfl, rfl, rfl⟩

/-- C2 witness: a no-stale interleaving keeps at most one invocation active,
and a non-stale second arrival is denied in-progress. -/
theorem C2_gate_exclusivity_witness :
    (worldRun world0
        [PubEvent.arrive 100000, PubEvent.finish, PubEvent.arrive 200000]).active ≤ 1 ∧
    (publishAndRefreshGitHubPages (baseEnv 100000 []) gstate0 (mutexHeldAt 50000)).outcome
      = RunOutcome.deniedInProgress :=
  ⟨(C2_gate_exclusivity_amended.1 world0
      [PubEvent.arrive 100000, PubEvent.finish, PubEvent.arrive 200000]
      (by decide) (by decide)).2,
   (C2_gate_exclusivity_amended.2 (baseEnv 100000 []) gstate0 (mutexHeldAt 50000)
      rfl (by decide)).1⟩

/-- C2 counterexample: the claim as stated fails.  A first invocation
acquires at t=100000 and never finishes; a second arrival at t=500000 finds
the mutex stale (400000ms > 300000ms), reclaims it, and passes the gate —
two invocations are then simultaneously past the gate. -/
theorem C2_counterexample :
    mutexConsistent world0 = true ∧
    (worldRun world0 [PubEvent.arrive 100000, PubEvent.arrive 500000]).active = 2 := by
  refine ⟨by decide, by decide⟩

/-- C3 (amended): the sanitizer output contains only TAB, LF, and printable
ASCII (line endings normalized, BOM/control characters removed, remaining
non-ASCII dropped), round-trips unchanged through the base64 transport
encoding, maps the fixed accent table to its ASCII replacements, and —
for non-empty input — ends with AT LEAST one trailing newline (empty input
yields empty output).  The unamended "exactly one trailing newline" fails:
pre-existing extra trailing newlines are preserved — see the
counterexample. -/
theorem C3_sanitize_spec_amended (s : List Nat) :
    (∀ c ∈ sanitizeContent s, c = 9 ∨ c = 10 ∨ (32 ≤ c ∧ c ≤ 126)) ∧
    b64decode (b64encode (sanitizeContent s)) = sanitizeContent s ∧
    (s = [] → sanitizeContent s = []) ∧
    (s ≠ [] → (sanitizeContent s).getLast? = some 10) ∧
    (∀ p ∈ translitPairs, sanitizeContent [p.1] = p.2 ++ [10]) := by
  refine ⟨mem_sanitizeContent s, ?_, ?_, sanitizeContent_getLast s, by decide⟩
  · refine b64_roundtrip _ fun c hc => ?_
    have := mem_sanitizeContent s c hc
    omega
  · intro hs
    rw [sanitizeContent_eq, if_pos hs]

/-- C3 witness: the guarantees instantiated on a concrete input containing
an accent, a CRLF pair, and a control character. -/
theorem C3_sanitize_witness :
    (∀ c ∈ sanitizeContent [97, 0xE9, 13, 10, 0], c = 9 ∨ c = 10 ∨ (32 ≤ c ∧ c ≤ 126)) ∧
    (sanitizeContent [97, 0xE9, 13, 10, 0]).getLast? = some 10 ∧
    b64decode (b64encode (sanitizeContent [97, 0xE9, 13, 10, 0]))
      = sanitizeContent [97, 0xE9, 13, 10, 0] :=
  ⟨(C3_sanitize_spec_amended [97, 0xE9, 13, 10, 0]).1,
   (C3_sanitize_spec_amended [97, 0xE9, 13, 10, 0]).2.2.2.1 (by decide),
   (C3_sanitize_spec_amended [97, 0xE9, 13, 10, 0]).2.1⟩

/-- C3 counterexample: the output does not end with EXACTLY one trailing
newline.  On input "a\n\n" the sanitizer keeps both trailing newlines (and
the last two output characters are both LF); on empty input the output is
empty, ending with no newline at all. -/
theorem C3_counterexample :
    sanitizeContent [97, 10, 10] = [97, 10, 10] ∧
    (sanitizeContent [97, 10, 10]).getLast? = some 10 ∧
    ((sanitizeContent [97, 10, 10]).dropLast).getLast? = some 10 ∧
    sanitizeContent [] = [] := by
  refine ⟨by decide, by decide, by decide, by decide⟩

/-- C4: the build-trigger decision triggers on an empty build list; with a
most recent build present it declines exactly when that build has status
"building" or "built" and started within the 2-minute window; in
particular "building" started 30s ago declines, the same build 3 minutes
ago triggers, and an empty list triggers. -/
theorem C4_build_trigger_decision (now : Int) :
    shouldTriggerPagesBuild [] now = true ∧
    (∀ (b : PagesBuild) (rest : List PagesBuild),
      shouldTriggerPagesBuild (b :: rest) now = false ↔
        (now - b.createdAt < 120000 ∧ (b.status = "building" ∨ b.status = "built"))) ∧
    (∀ rest : List PagesBuild,
      shouldTriggerPagesBuild ({ status := "building", createdAt := now - 30000 } :: rest) now
        = false) ∧
    (∀ rest : List PagesBuild,
      shouldTriggerPagesBuild ({ status := "building", createdAt := now - 180000 } :: rest) now
        = true) := by
  refine ⟨rfl, ?_, ?_, ?_⟩
  · intro b rest
    simp only [shouldTriggerPagesBuild]
    split
    · rename_i hcond
      exact iff_of_true rfl hcond
    · rename_i hcond
      exact iff_of_false (by simp) hcond
  · intro rest
    simp only [shouldTriggerPagesBuild]
    split_ifs with h
    · rfl
    · exact absurd ⟨by omega, by simp⟩ h
  · intro rest
    simp only [shouldTriggerPagesBuild]
    split_ifs with h
    · exfalso
      rcases h with ⟨h1, -⟩
      omega
    · rfl

/-- C9: the cooldown checks are exact: `canTriggerGitHubAction` is true iff
60s have elapsed since the recorded trigger time; `getRemainingCooldown`
is the ceiling in seconds of the remaining wait, strictly positive exactly
when the gate is closed, zero otherwise, and non-increasing as the clock
advances. -/
theorem C9_cooldown_spec (t now : Int) (h : t ≤ now) :
    (canTriggerGitHubAction { lastGitHubActionTime := t } now = true ↔ now - t ≥ 60000) ∧
    (0 < getRemainingCooldown { lastGitHubActionTime := t } now ↔
      canTriggerGitHubAction { lastGitHubActionTime := t } now = false) ∧
    (canTriggerGitHubAction { lastGitHubActionTime := t } now = true →
      getRemainingCooldown { lastGitHubActionTime := t } now = 0) ∧
    (canTriggerGitHubAction { lastGitHubActionTime := t } now = false →
      1000 * ((getRemainingCooldown { lastGitHubActionTime := t } now : Int) - 1)
          < 60000 - (now - t) ∧
      60000 - (now - t) ≤ 1000 * (getRemainingCooldown { lastGitHubActionTime := t } now : Int)) ∧
    (∀ now2 : Int, now ≤ now2 →
      getRemainingCooldown { lastGitHubActionTime := t } now2
        ≤ getRemainingCooldown { lastGitHubActionTime := t } now) := by
  refine ⟨?_, ?_, ?_, ?_, ?_⟩
  · simp [canTriggerGitHubAction, GITHUB_ACTION_COOLDOWN]
  · simp only [getRemainingCooldown, canTriggerGitHubAction, GITHUB_ACTION_COOLDOWN,
      decide_eq_false_iff_not]
    split_ifs <;> omega
  · intro hc
    simp only [canTriggerGitHubAction, GITHUB_ACTION_COOLDOWN, decide_eq_true_eq] at hc
    simp only [getRemainingCooldown, GITHUB_ACTION_COOLDOWN]
    rw [if_neg (by omega)]
  · intro hc
    simp only [canTriggerGitHubAction, GITHUB_ACTION_COOLDOWN,
      decide_eq_false_iff_not] at hc
    simp only [getRemainingCooldown, GITHUB_ACTION_COOLDOWN]
    rw [if_pos (by omega)]
    omega
  · intro now2 h2
    simp only [getRemainingCooldown, GITHUB_ACTION_COOLDOWN]
    split_ifs <;> omega

/-- C9 witness: concrete cooldown arithmetic 30s after a trigger at t=0. -/
theorem C9_cooldown_witness :
    (0 < getRemainingCooldown { lastGitHubActionTime := 0 } 30000 ↔
      canTriggerGitHubAction { lastGitHubActionTime := 0 } 30000 = false) ∧
    getRemainingCooldown { lastGitHubActionTime := 0 } 59500
      ≤ getRemainingCooldown { lastGitHubActionTime := 0 } 30000 :=
  ⟨(C9_cooldown_spec 0 30000 (by decide)).2.1,
   (C9_cooldown_spec 0 30000 (by decide)).2.2.2.2 59500 (by decide)⟩

/-- C10: the sanitizer is idempotent — applying it to its own output
returns the output unchanged, for every input. -/
theorem C10_sanitize_idempotent (s : List Nat) :
    sanitizeContent (sanitizeContent s) = sanitizeContent s := by
  rcases eq_or_ne s [] with hs | hs
  · subst hs; rfl
  · have hgood := mem_sanitizeContent s
    have hlast := sanitizeContent_getLast s hs
    have hne : sanitizeContent s ≠ [] := by
      intro h0
      rw [h0] at hlast
      simp at hlast
    rw [sanitizeContent_eq (sanitizeContent s), if_neg hne, sanitizeCore_eq_self _ hgood,
      if_pos hlast]

/-- C6: a publish attempt that finds the mutex held but stale (held longer
than the 5-minute timeout) is not denied as already-in-progress; it reclaims
the lock, and — the cooldown permitting — acquires it and proceeds. -/
theorem C6_stale_reclaim (e : PublishEnv) (g : GState) (s : SState)
    (hp : s.isPublishing = true) (hstale : e.now - s.publishingStartTime > PUBLISH_TIMEOUT) :
    (publishAndRefreshGitHubPages e g s).outcome ≠ RunOutcome.deniedInProgress ∧
    (canTriggerGitHubAction g e.now = true →
      (publishAndRefreshGitHubPages e g s).acquired = true) := by
  have hg1 : ¬(s.isPublishing = true ∧ ¬(e.now - s.publishingStartTime > PUBLISH_TIMEOUT)) := by
    rintro ⟨-, hcon⟩
    exact hcon hstale
  cases hct : canTriggerGitHubAction g e.now with
  | false =>
      have hg : publishGate g s e.now =
          (GateDecision.denyCooldown, { isPublishing := false, publishingStartTime := 0 }) := by
        simp [publishGate, hg1, hp, hct]
        omega
      unfold publishAndRefreshGitHubPages
      rw [hg]
      exact ⟨by simp, fun htr => by cases htr⟩
  | true =>
      have hg : publishGate g s e.now =
          (GateDecision.proceed, { isPublishing := true, publishingStartTime := e.now }) := by
        simp [publishGate, hg1, hp, hct]
        omega
      unfold publishAndRefreshGitHubPages
      rw [hg]
      refine ⟨?_, fun _ => rfl⟩
      split_ifs <;> simp

/-- C6 witness: a six-and-a-half-minute-old lock is reclaimed and the new
attempt proceeds. -/
theorem C6_stale_reclaim_witness :
    (publishAndRefreshGitHubPages (baseEnv 400000 []) gstate0 (mutexHeldAt 0)).outcome
      ≠ RunOutcome.deniedInProgress ∧
    (publishAndRefreshGitHubPages (baseEnv 400000 []) gstate0 (mutexHeldAt 0)).acquired
      = true :=
  ⟨(C6_stale_reclaim (baseEnv 400000 []) gstate0 (mutexHeldAt 0) rfl (by decide)).1,
   (C6_stale_reclaim (baseEnv 400000 []) gstate0 (mutexHeldAt 0) rfl (by decide)).2 (by decide)⟩

/-- C7: every invocation that acquires the in-flight mutex leaves it
released — `isPublishing = false` and the start time cleared — whatever the
environment did (success, partial failure, missing configuration, or a
thrown connection error). -/
theorem C7_mutex_always_released (e : PublishEnv) (g : GState) (s : SState)
    (h : (publishAndRefreshGitHubPages e g s).acquired = true) :
    (publishAndRefreshGitHubPages e g s).st =
      { isPublishing := false, publishingStartTime := 0 } := by
  rcases hpg : publishGate g s e.now with ⟨d, s1⟩
  unfold publishAndRefreshGitHubPages at h ⊢
  rw [hpg] at h ⊢
  cases d with
  | denyInProgress => simp at h
  | denyCooldown => simp at h
  | proceed => rfl

/-- Shape of the trace of `triggerPagesBuildIfNeeded`: the build listing,
optionally followed by one trigger attempt. -/
theorem triggerActs_cases (e : PublishEnv) :
    (triggerPagesBuildIfNeeded e).2 = [Action.listPagesBuilds] ∨
    (triggerPagesBuildIfNeeded e).2 = [Action.listPagesBuilds, Action.triggerPagesBuild false] ∨
    (triggerPagesBuildIfNeeded e).2 = [Action.listPagesBuilds, Action.triggerPagesBuild true] := by
  cases hbf : e.buildsFetchErr with
  | some m =>
      left
      simp [triggerPagesBuildIfNeeded, hbf]
  | none =>
      by_cases hst : shouldTriggerPagesBuild e.recentBuilds e.now = true
      · cases htr : e.triggerErr with
        | some m2 =>
            right; left
            simp [triggerPagesBuildIfNeeded, hbf, hst, htr]
        | none =>
            right; right
            simp [triggerPagesBuildIfNeeded, hbf, hst, htr]
      · left
        simp [triggerPagesBuildIfNeeded, hbf, hst]

/-- After the gate admits with valid configuration and connection, the run's
trace, error list, and success count are exactly those of steps 4–6. -/
theorem publish_run_eq (e : PublishEnv) (g : GState) (s : SState)
    (hconf : e.configured = true) (hconn : e.connErr = none)
    (hgate : (publishGate g s e.now).1 = GateDecision.proceed) :
    (publishAndRefreshGitHubPages e g s).actions =
      (Action.testConn :: Action.readRemoteSiteFiles :: (step45 e).2.2)
        ++ (pagesStep e (step45 e).2.1).2.2 ++ [Action.saveSettings] ∧
    (publishAndRefreshGitHubPages e g s).res.errors = (pagesStep e (step45 e).2.1).1 ∧
    (publishAndRefreshGitHubPages e g s).res.synced = (step45 e).1 := by
  rcases hpg : publishGate g s e.now with ⟨d, s1⟩
  rw [hpg] at hgate
  simp only at hgate
  subst hgate
  unfold publishAndRefreshGitHubPages
  rw [hpg]
  refine ⟨?_, ?_, ?_⟩ <;> simp [publishBody, hconf, hconn]

/-- All-success run of the step-5 loop. -/
theorem postsLoop_all_ok (shaMap : List (String × String)) (perr : Nat → Option String)
    (ps : List LocalPost) (i : Nat) (h : ∀ j, i ≤ j → perr j = none) :
    postsLoop shaMap perr i ps =
      (ps.length, [], ps.map fun p =>
        Action.writePost p.filename ((shaMap.find? fun q => q.1 == p.filename).isSome) true) := by
  induction ps generalizing i with
  | nil => rfl
  | cons p rest ih =>
      have hi : perr i = none := h i le_rfl
      simp only [postsLoop, hi, ih (i + 1) (fun j hj => h j (by omega))]
      simp

theorem filterMap_writePostName_map (shaMap : List (String × String)) (rest : List LocalPost) :
    ((rest.map fun p =>
        Action.writePost p.filename ((shaMap.find? fun q => q.1 == p.filename).isSome) true)
      |>.filterMap writePostName) = rest.map LocalPost.filename := by
  induction rest with
  | nil => rfl
  | cons q qs ih => simp [writePostName, ih]

theorem filter_isPostSuccess_map (shaMap : List (String × String)) (rest : List LocalPost) :
    ((rest.map fun p =>
        Action.writePost p.filename ((shaMap.find? fun q => q.1 == p.filename).isSome) true)
      |>.filter isPostSuccess).length = rest.length := by
  induction rest with
  | nil => rfl
  | cons q qs ih => simp [isPostSuccess, ih]

/-- Step-5 loop where exactly the post at index `k` fails: every post is
still attempted in order, the successes are all the others, and exactly one
error is recorded, tagged with the failing post's filename. -/
theorem postsLoop_one_fail (shaMap : List (String × String)) (perr : Nat → Option String)
    (msg : String) (k : Nat) (ps : List LocalPost) (pk : LocalPost) (i : Nat)
    (hik : i ≤ k) (hget : ps[k - i]? = some pk)
    (hfail : perr k = some msg) (hok : ∀ j, j ≠ k → perr j = none) :
    (postsLoop shaMap perr i ps).1 = ps.length - 1 ∧
    (postsLoop shaMap perr i ps).2.1 = [PubError.post pk.filename msg] ∧
    (postsLoop shaMap perr i ps).2.2.filterMap writePostName = ps.map LocalPost.filename ∧
    ((postsLoop shaMap perr i ps).2.2.filter isPostSuccess).length = ps.length - 1 := by
  induction ps generalizing i with
  | nil => simp at hget
  | cons p rest ih =>
      by_cases hikk : i = k
      · subst hikk
        have hpk : p = pk := by
          rw [Nat.sub_self] at hget
          simpa using hget
        subst hpk
        have hall := postsLoop_all_ok shaMap perr rest (i + 1) (fun j hj => hok j (by omega))
        simp only [postsLoop, hfail, hall]
        refine ⟨by simp, by simp, ?_, ?_⟩
        · simp only [List.filterMap_cons, writePostName, List.map_cons]
          rw [filterMap_writePostName_map]
        · simp only [List.filter_cons, isPostSuccess]
          rw [if_neg (by simp), filter_isPostSuccess_map]
          simp
      · have hik2 : i + 1 ≤ k := by omega
        have hsub : k - i = (k - (i + 1)) + 1 := by omega
        have hget2 : rest[k - (i + 1)]? = some pk := by
          rw [hsub] at hget
          simpa using hget
        have hlen : k - (i + 1) < rest.length := by
          by_contra hcon
          rw [List.getElem?_eq_none (by omega)] at hget2
          cases hget2
        have hi : perr i = none := hok i (by omega)
        obtain ⟨ih1, ih2, ih3, ih4⟩ := ih (i + 1) hik2 hget2
        refine ⟨?_, ?_, ?_, ?_⟩
        · simp only [postsLoop, hi]
          simp only [List.length_cons]
          omega
        · simp only [postsLoop, hi]
          simpa using ih2
        · simp only [postsLoop, hi]
          simp only [List.filterMap_cons, writePostName, List.map_cons, ih3]
        · simp only [postsLoop, hi]
          simp only [List.filter_cons, isPostSuccess]
          rw [if_pos (by simp)]
          simp only [List.length_cons, ih4]
          omega

/-- C5: in every admitted run with valid configuration, the publish-target
enable is attempted only after all content writes (the five site artifacts
and every post) — the trace is the content prefix, then the enable attempt,
then only build-consultation actions, then the bookkeeping write; and the
build-trigger logic is consulted only when the error list accumulated by the
content steps is empty. -/
theorem C5_enable_after_writes (e : PublishEnv) (g : GState) (s : SState)
    (hconf : e.configured = true) (hconn : e.connErr = none)
    (hgate : (publishGate g s e.now).1 = GateDecision.proceed) :
    ∃ (ok : Bool) (buildActs : List Action),
      (publishAndRefreshGitHubPages e g s).actions =
        (Action.testConn :: Action.readRemoteSiteFiles :: (step45 e).2.2)
          ++ (Action.enablePages ok :: buildActs) ++ [Action.saveSettings] ∧
      (∀ a ∈ Action.enablePages ok :: buildActs ++ [Action.saveSettings],
        isContentWrite a = false) ∧
      (∀ a ∈ buildActs, a = Action.listPagesBuilds ∨ ∃ b, a = Action.triggerPagesBuild b) ∧
      ((step45 e).2.1 ≠ [] → buildActs = []) ∧
      (buildActs ≠ [] → (step45 e).2.1 = [] ∧ e.enableErr = none) := by
  obtain ⟨hacts, -, -⟩ := publish_run_eq e g s hconf hconn hgate
  cases henable : e.enableErr with
  | some m =>
      have hps : (pagesStep e (step45 e).2.1).2.2 = [Action.enablePages false] := by
        simp only [pagesStep, henable]
      refine ⟨false, [], by rw [hacts, hps], by decide, ?_, fun _ => rfl, ?_⟩
      · intro a ha
        simp at ha
      · intro hcon
        exact absurd rfl hcon
  | none =>
      by_cases herr : (step45 e).2.1 = []
      · rcases htri : triggerPagesBuildIfNeeded e with ⟨tres, tacts⟩
        have hshape : tacts = [Action.listPagesBuilds] ∨
            tacts = [Action.listPagesBuilds, Action.triggerPagesBuild false] ∨
            tacts = [Action.listPagesBuilds, Action.triggerPagesBuild true] := by
          have h := triggerActs_cases e
          rw [htri] at h
          simpa using h
        have hps : (pagesStep e (step45 e).2.1).2.2 = Action.enablePages true :: tacts := by
          simp only [pagesStep, henable, herr, htri]
          cases tres <;> rfl
        refine ⟨true, tacts, by rw [hacts, hps], ?_, ?_,
          fun hcon => absurd herr hcon, fun _ => ⟨herr, rfl⟩⟩
        · rcases hshape with h | h | h <;> subst h <;> decide
        · rcases hshape with h | h | h <;> subst h <;> decide
      · have hps : (pagesStep e (step45 e).2.1).2.2 = [Action.enablePages true] := by
          simp only [pagesStep, henable]
          rw [if_neg herr]
        refine ⟨true, [], by rw [hacts, hps], by decide, ?_, fun _ => rfl, ?_⟩
        · intro a ha
          simp at ha
        · intro hcon
          exact absurd rfl hcon

/-- C5 witness: the trace decomposition on a concrete successful run. -/
theorem C5_enable_after_writes_witness :
    ∃ (ok : Bool) (buildActs : List Action),
      (publishAndRefreshGitHubPages (baseEnv 1000000 []) gstate0 mutexIdle).actions =
        (Action.testConn :: Action.readRemoteSiteFiles :: (step45 (baseEnv 1000000 [])).2.2)
          ++ (Action.enablePages ok :: buildActs) ++ [Action.saveSettings] ∧
      (∀ a ∈ Action.enablePages ok :: buildActs ++ [Action.saveSettings],
        isContentWrite a = false) ∧
      (∀ a ∈ buildActs, a = Action.listPagesBuilds ∨ ∃ b, a = Action.triggerPagesBuild b) ∧
      ((step45 (baseEnv 1000000 [])).2.1 ≠ [] → buildActs = []) ∧
      (buildActs ≠ [] → (step45 (baseEnv 1000000 [])).2.1 = [] ∧
        (baseEnv 1000000 []).enableErr = none) :=
  C5_enable_after_writes (baseEnv 1000000 []) gstate0 mutexIdle rfl rfl (by decide)

/-- C8: when exactly post `k` of N fails and every other write succeeds, the
run still attempts all N post writes in order, succeeds on the other N-1,
records exactly one error — tagged with post k's filename — and counts
5 artifact successes plus N-1 post successes. -/
theorem C8_partial_failure_isolation (e : PublishEnv) (g : GState) (s : SState)
    (k : Nat) (pk : LocalPost) (msg : String)
    (hconf : e.configured = true) (hconn : e.connErr = none)
    (hgate : (publishGate g s e.now).1 = GateDecision.proceed)
    (hj : e.jekyllErr = none) (hcs : e.cssErr = none) (hl : e.layoutErr = none)
    (hh : e.homepageErr = none) (hr : e.readmeErr = none) (hen : e.enableErr = none)
    (hget : e.localPosts[k]? = some pk)
    (hfail : e.postErr k = some msg) (hok : ∀ j, j ≠ k → e.postErr j = none) :
    (publishAndRefreshGitHubPages e g s).actions.filterMap writePostName
      = e.localPosts.map LocalPost.filename ∧
    ((publishAndRefreshGitHubPages e g s).actions.filter isPostSuccess).length
      = e.localPosts.length - 1 ∧
    (publishAndRefreshGitHubPages e g s).res.errors = [PubError.post pk.filename msg] ∧
    (publishAndRefreshGitHubPages e g s).res.synced = 5 + (e.localPosts.length - 1) ∧
    errText (PubError.post pk.filename msg) = "Post " ++ (pk.filename ++ (": " ++ msg)) := by
  obtain ⟨hacts, herrs, hsync⟩ := publish_run_eq e g s hconf hconn hgate
  obtain ⟨hp1, hp2, hp3, hp4⟩ :=
    postsLoop_one_fail (if e.getPostsOk then e.existingShas else []) e.postErr msg k
      e.localPosts pk 0 (Nat.zero_le k) (by simpa using hget) hfail hok
  have herr1 : (step45 e).2.1 = [PubError.post pk.filename msg] := by
    simp [step45, artifactStep, hj, hcs, hl, hh, hr, hp2]
  have herrne : (step45 e).2.1 ≠ [] := by
    rw [herr1]
    simp
  have hps : (pagesStep e (step45 e).2.1).2.2 = [Action.enablePages true] := by
    simp only [pagesStep, hen]
    rw [if_neg herrne]
  have hpserr : (pagesStep e (step45 e).2.1).1 = (step45 e).2.1 := by
    simp only [pagesStep, hen]
    rw [if_neg herrne]
  refine ⟨?_, ?_, ?_, ?_, rfl⟩
  · rw [hacts, hps]
    simp [step45, artifactStep, hj, hcs, hl, hh, hr, writePostName, hp3]
  · rw [hacts, hps]
    simp only [step45, artifactStep, hj, hcs, hl, hh, hr]
    simp [isPostSuccess, hp4]
  · rw [herrs, hpserr, herr1]
  · rw [hsync]
    simp [step45, artifactStep, hj, hcs, hl, hh, hr, hp1]

/-- C8 witness: three posts, the middle write rejects with the conflict
message; both other posts are still written and exactly one error names the
failing filename. -/
theorem C8_partial_failure_witness :
    (publishAndRefreshGitHubPages c8Env gstate0 mutexIdle).actions.filterMap writePostName
      = ["2024-01-01-a.md", "2024-01-02-b.md", "2024-01-03-c.md"] ∧
    ((publishAndRefreshGitHubPages c8Env gstate0 mutexIdle).actions.filter isPostSuccess).length
      = 2 ∧
    (publishAndRefreshGitHubPages c8Env gstate0 mutexIdle).res.errors
      = [PubError.post "2024-01-02-b.md"
          "Post has been modified by someone else. Please refresh and try again."] ∧
    (publishAndRefreshGitHubPages c8Env gstate0 mutexIdle).res.synced = 7 := by
  have h := C8_partial_failure_isolation c8Env gstate0 mutexIdle 1
    { filename := "2024-01-02-b.md" }
    "Post has been modified by someone else. Please refresh and try again."
    rfl rfl (by decide) rfl rfl rfl rfl rfl rfl (by decide) (by decide)
    (by
      intro j hj
      show (if j = 1 then
        some "Post has been modified by someone else. Please refresh and try again."
        else none) = none
      rw [if_neg hj])
  exact ⟨h.1, h.2.1, h.2.2.1, h.2.2.2.1⟩

/-- C7 witness: after a run whose connection test throws, the mutex is
still released. -/
theorem C7_mutex_released_witness :
    (publishAndRefreshGitHubPages
        { baseEnv 1000000 [] with connErr := some "Failed to connect to GitHub" }
        gstate0 mutexIdle).st = { isPublishing := false, publishingStartTime := 0 } :=
  C7_mutex_always_released
    { baseEnv 1000000 [] with connErr := some "Failed to connect to GitHub" }
    gstate0 mutexIdle (by decide)

end GitBlog
